import Mathlib

/-!
Verification of the bandchat server's messaging pipeline against its
natural-language specification.

The JavaScript request handlers (message routes, push routes, socket
handlers) are shallowly embedded as pure Lean functions over an explicit
database state `DB`.  The persistence collaborator (Prisma over a
relational store) is modelled as pure list queries; durable writes are
modelled as always succeeding, matching the spec's treatment of the store
as an external collaborator whose internal failures are out of scope.
JavaScript-specific semantics that the handlers rely on (string trimming,
truthiness of optional values, `Array.prototype.slice`, Prisma's `take`)
are embedded explicitly below.
-/

namespace Bandchat

/-! ### JavaScript string and value primitives -/

/-- Whitespace characters trimmed by `String.prototype.trim` (ASCII part). -/
def isWsChar (c : Char) : Bool :=
  c = ' ' || c = '\t' || c = '\n' || c = '\r' || c = '\x0b' || c = '\x0c'

/-- The character-list form of `String.prototype.trim`. -/
def jsTrimList (l : List Char) : List Char :=
  ((l.dropWhile isWsChar).reverse.dropWhile isWsChar).reverse

/-- JavaScript `s.trim()`. -/
def jsTrim (s : String) : String :=
  String.mk (jsTrimList s.data)

/-- JavaScript `s.toLowerCase()` (ASCII case folding). -/
def lowerStr (s : String) : String :=
  String.mk (s.data.map Char.toLower)

/-- Truthiness of an optional string value in JavaScript: `undefined`/`null`
and the empty string are falsy, every other string is truthy. -/
def jsTruthy : Option String → Bool
  | none => false
  | some s => s ≠ ""

/-- Whether `pre` is a leading segment of `l`. -/
def startsWithL : List Char → List Char → Bool
  | [], _ => true
  | _ :: _, [] => false
  | a :: as, b :: bs => a = b && startsWithL as bs

/-- Substring containment on character lists (used for Prisma's
`contains` filter). -/
def containsSub (needle : List Char) : List Char → Bool
  | [] => needle.isEmpty
  | c :: rest => startsWithL needle (c :: rest) || containsSub needle rest

/-- Prisma `take n`: first `n` rows for nonnegative `n`, last `-n` rows for
negative `n`. -/
def prismaTake (n : Int) (l : List α) : List α :=
  if 0 ≤ n then l.take n.toNat
  else l.drop (l.length - (-n).toNat)

/-- JavaScript `l.slice(0, n)`: first `n` elements for nonnegative `n`,
all but the last `-n` elements for negative `n`. -/
def jsSliceTo (n : Int) (l : List α) : List α :=
  if 0 ≤ n then l.take n.toNat
  else l.take (l.length - (-n).toNat)

/-! ### Data model

Rows of the relational store, as read and written by the handlers.  Ids are
cuid strings generated by the store.  `createdAt` timestamps are modelled
as naturals. -/

structure UserR where
  id : String
  displayName : String
deriving DecidableEq

structure WorkspaceMemberR where
  userId : String
  workspaceId : String
  role : String
deriving DecidableEq

structure ChannelR where
  id : String
  workspaceId : String
  isPrivate : Bool
deriving DecidableEq

structure ChannelMemberR where
  userId : String
  channelId : String
deriving DecidableEq

structure Message where
  id : String
  channelId : String
  authorId : String
  content : String
  parentId : Option String
  createdAt : Nat
deriving DecidableEq

structure PushSubR where
  id : String
  userId : String
  endpoint : String
  p256dh : String
  keyAuth : String
deriving DecidableEq

/-- The database state visible to the handlers. -/
structure DB where
  users : List UserR
  workspaceMembers : List WorkspaceMemberR
  channels : List ChannelR
  channelMembers : List ChannelMemberR
  messages : List Message
  pushSubs : List PushSubR
deriving DecidableEq

/-! ### Store queries (Prisma `findUnique` / `findMany` embeddings) -/

def findUser (db : DB) (uid : String) : Option UserR :=
  db.users.find? (fun u => u.id = uid)

def findChannel (db : DB) (cid : String) : Option ChannelR :=
  db.channels.find? (fun c => c.id = cid)

def findMessage (db : DB) (mid : String) : Option Message :=
  db.messages.find? (fun m => m.id = mid)

/-- Whether a `workspaceMember` row exists for `(uid, wsId)`
(`prisma.workspaceMember.findUnique` on the compound key). -/
def wsMemberExists (db : DB) (uid wsId : String) : Bool :=
  (db.workspaceMembers.find? (fun m => m.userId = uid && m.workspaceId = wsId)).isSome

/-- Whether a `channelMember` row exists for `(uid, cid)`
(`prisma.channelMember.findUnique` on the compound key). -/
def chanMemberExists (db : DB) (uid cid : String) : Bool :=
  (db.channelMembers.find? (fun m => m.userId = uid && m.channelId = cid)).isSome

/-- The visibility rule of spec 4.2 as used by the search handler and the
socket connect query: a channel is accessible when it is public, or when an
explicit channel membership row exists for the requester. -/
def canAccessChannel (db : DB) (uid : String) (ch : ChannelR) : Bool :=
  !ch.isPrivate || chanMemberExists db uid ch.id

/-- Ids of the requester-accessible channels of a workspace, as computed by
the search handler's `accessibleChannels` query. -/
def accessibleChannelIds (db : DB) (uid wsId : String) : List String :=
  (db.channels.filter (fun c => c.workspaceId = wsId && canAccessChannel db uid c)).map (·.id)

/-! ### Thread & Pagination Engine: GET /channel/:channelId

The paginated top-level listing handler (`routes/messages.js`).  The Prisma
query filters by channel with `parentId: null`, orders by `createdAt`
descending (no secondary key), positions at the cursor row when a truthy
`cursor` is given (skipping the cursor row itself), and fetches
`take + 1 = min(parseInt(limit), 100) + 1` rows.  The store's row
order is modelled by a stable insertion sort of the stored row list under
the handler's `orderBy` relation; cursor positioning is modelled by
dropping rows up to and including the cursor row. -/

/-- The relation of the handler's `orderBy: { createdAt: 'desc' }`: row `a`
may precede row `b` exactly when `b.createdAt ≤ a.createdAt`.  There is no
secondary sort key. -/
def createdDesc (a b : Message) : Prop := b.createdAt ≤ a.createdAt

instance : DecidableRel createdDesc := fun _ _ => Nat.decLe _ _

instance : IsTotal Message createdDesc :=
  ⟨fun a b => Nat.le_total b.createdAt a.createdAt⟩

instance : IsTrans Message createdDesc :=
  ⟨fun _ _ _ h1 h2 => Nat.le_trans h2 h1⟩

/-- Chronological (ascending `createdAt`) order, the order of the returned
page after the handler's final `reverse()`. -/
def createdAsc (a b : Message) : Prop := a.createdAt ≤ b.createdAt

/-- Top-level messages of a channel: the handler's `where` clause
`{ channelId, parentId: null }`. -/
def topLevelMessages (db : DB) (cid : String) : List Message :=
  db.messages.filter (fun m => m.channelId = cid && m.parentId = none)

/-- The channel's top-level rows in the order produced by the store for
`orderBy: { createdAt: 'desc' }`. -/
def sortedTopLevel (db : DB) (cid : String) : List Message :=
  List.insertionSort createdDesc (topLevelMessages db cid)

/-- Rows after the cursor: with a truthy cursor the store positions at the
row with that id and `skip: 1` excludes the row itself; with no (or a
falsy) cursor the whole ordered listing is used. -/
def afterCursorRows (db : DB) (cid : String) (cursor : Option String) : List Message :=
  if jsTruthy cursor then
    ((sortedTopLevel db cid).dropWhile (fun m => m.id ≠ cursor.getD "")).drop 1
  else sortedTopLevel db cid

/-- The handler's `take = Math.min(parseInt(limit), 100)` with the
destructuring default `limit = 50`.  Note there is no lower clamp. -/
def takeParam (limit : Option Int) : Int :=
  min (limit.getD 50) 100

/-- The `take: take + 1` fetch used to detect `hasMore`. -/
def fetchedRows (db : DB) (cid : String) (cursor : Option String) (take : Int) : List Message :=
  prismaTake (take + 1) (afterCursorRows db cid cursor)

/-- `hasMore = messages.length > take`. -/
def hasMoreOf (db : DB) (cid : String) (cursor : Option String) (take : Int) : Bool :=
  take < ((fetchedRows db cid cursor take).length : Int)

/-- `items = hasMore ? messages.slice(0, take) : messages`. -/
def itemsOf (db : DB) (cid : String) (cursor : Option String) (take : Int) : List Message :=
  if hasMoreOf db cid cursor take then jsSliceTo take (fetchedRows db cid cursor take)
  else fetchedRows db cid cursor take

/-- Error outcomes of a request handler (HTTP status classes). -/
inductive HErr where
  | badRequest
  | forbidden
  | notFound
  | server
deriving DecidableEq

/-- The response body of the paginated listing. -/
structure Page where
  messages : List Message
  nextCursor : Option String
  hasMore : Bool
deriving DecidableEq

/-- GET /channel/:channelId.  The response is built as
`{ messages: items.reverse(), nextCursor: hasMore ? items[0].id : null,
hasMore }`; `Array.prototype.reverse` mutates in place and the object
literal evaluates `messages` first, so `items[0]` is the oldest returned
item.  When `hasMore` holds but `items` is empty (possible because the
handler has no lower clamp on `limit`), `items[0].id` throws a `TypeError`,
caught as a 500. -/
def listTopLevel (db : DB) (cid : String) (cursor : Option String)
    (limit : Option Int) : Except HErr Page :=
  if hasMoreOf db cid cursor (takeParam limit) then
    match (itemsOf db cid cursor (takeParam limit)).reverse.head? with
    | some m =>
      Except.ok { messages := (itemsOf db cid cursor (takeParam limit)).reverse,
                  nextCursor := some m.id, hasMore := true }
    | none => Except.error HErr.server
  else
    Except.ok { messages := (itemsOf db cid cursor (takeParam limit)).reverse,
                nextCursor := none, hasMore := false }

/-! ### Thread & Pagination Engine: GET /search/:workspaceId

The search handler.  After validating the query and the requester's
workspace membership it computes the accessible channel ids, then builds a
Prisma `where` object by object-literal spread:

  { channelId: { in: accessibleIds }, content: { contains, insensitive },
    ...(channelId && { channelId }), ...(authorId && { authorId }) }

When the optional `channelId` filter is truthy, the spread inserts a
`channelId` key that overwrites the earlier `channelId: { in: ... }` key,
so the accessibility restriction is replaced by a bare equality on the
requested channel id. -/

/-- The effective row predicate of the search handler's `where` object,
after JavaScript object-spread evaluation. -/
def searchWhere (db : DB) (uid wsId : String) (q : String)
    (channelId authorId : Option String) (m : Message) : Bool :=
  (if jsTruthy channelId then m.channelId = channelId.getD ""
   else (accessibleChannelIds db uid wsId).contains m.channelId)
  && containsSub (lowerStr (jsTrim q)).data (lowerStr m.content).data
  && (if jsTruthy authorId then m.authorId = authorId.getD "" else true)

/-- GET /search/:workspaceId with query parameters `q`, `channelId?`,
`authorId?`, `limit` (destructuring default 20).  Rejects a falsy or
too-short `q` with 400, a non-member requester with 403; otherwise returns
the matching rows ordered by `createdAt` descending, first
`parseInt(limit)` rows. -/
def searchMessages (db : DB) (uid wsId : String) (q : Option String)
    (channelId authorId : Option String) (limit : Option Int) :
    Except HErr (List Message) :=
  if !jsTruthy q || (jsTrim (q.getD "")).data.length < 2 then
    Except.error HErr.badRequest
  else if !wsMemberExists db uid wsId then
    Except.error HErr.forbidden
  else
    Except.ok (prismaTake (limit.getD 20)
      (List.insertionSort createdDesc
        (db.messages.filter (searchWhere db uid wsId (q.getD "") channelId authorId))))

/-! ### Socket events and push payloads -/

/-- A JavaScript value carried in a socket event payload. -/
inductive JsVal where
  | str : String → JsVal
  | msgVal : Message → JsVal
  | usrVal : UserR → JsVal
  | obj : List (String × JsVal) → JsVal

/-- One `io.to(room).emit(name, payload)` call. -/
structure EmitEvent where
  room : String
  name : String
  payload : JsVal

/-- Whether a payload is an object literal with field `k`. -/
def hasKey (k : String) : JsVal → Bool
  | JsVal.obj fields => fields.any (fun f => f.1 = k)
  | _ => false

/-- The web-push payload schema. -/
structure PushPayload where
  title : String
  body : String
  tag : String
  url : String
  channelId : String
  workspaceId : String
deriving DecidableEq

/-- One `sendPushToUser(userId, payload)` trigger. -/
structure PushCall where
  userId : String
  payload : PushPayload
deriving DecidableEq

/-! ### Mention & Notification Dispatcher

Mention extraction embeds `content.match(/@(\w+)/g)`: the scan finds each
literal `@` that is followed by at least one word character and takes the
maximal word-character run after it; matches are non-overlapping and kept
in order, each including its leading `@` as in the JavaScript match
result. -/

/-- JavaScript regex word character: `[A-Za-z0-9_]`. -/
def isWordChar (c : Char) : Bool :=
  c.isAlphanum || c = '_'

/-- Global scan of `/@(\w+)/`, written with a structural fuel argument so
that it computes by kernel reduction; each step consumes at least one
character, so any fuel at least the input length yields the full scan.
Tokens are returned with their leading `@`. -/
def scanFuel : Nat → List Char → List String
  | 0, _ => []
  | _ + 1, [] => []
  | fuel + 1, c :: rest =>
    if c = '@' then
      let run := rest.takeWhile isWordChar
      if run = [] then scanFuel fuel rest
      else ("@" ++ String.mk run) :: scanFuel fuel (rest.drop run.length)
    else scanFuel fuel rest

/-- Global scan of `/@(\w+)/` over a character list. -/
def scanMentions (l : List Char) : List String :=
  scanFuel l.length l

/-- The mention tokens of a message's raw (untrimmed) content. -/
def extractMentions (content : String) : List String :=
  scanMentions content.data

/-- Workspace member rows joined with their user records
(`workspaceMember.findMany` with `include: { user }`; the user row always
exists for a member row by referential integrity, so a dangling member row
is skipped). -/
def wsMembersWithUser (db : DB) (wsId : String) : List (WorkspaceMemberR × UserR) :=
  (db.workspaceMembers.filter (fun m => m.workspaceId = wsId)).filterMap
    (fun m => (findUser db m.userId).map (fun u => (m, u)))

/-- The handler's resolution filter: some token, with its `@` sliced off,
equals the member's display name case-insensitively. -/
def mentionMatches (tokens : List String) (u : UserR) : Bool :=
  tokens.any (fun t => lowerStr (String.mk (t.data.drop 1)) = lowerStr u.displayName)

/-- `mentionedUsers`: the workspace members whose display name matches a
token of the content. -/
def mentionedOf (db : DB) (wsId content : String) : List (WorkspaceMemberR × UserR) :=
  (wsMembersWithUser db wsId).filter
    (fun p => mentionMatches (extractMentions content) p.2)

/-- The `mention` event emitted to a matched member's personal room: its
payload object carries exactly the fields `channelId`, `message` and
`mentionedBy`. -/
def mentionEventFor (cid : String) (msg : Message) (actingUser : UserR)
    (p : WorkspaceMemberR × UserR) : EmitEvent :=
  { room := "user:" ++ p.1.userId, name := "mention",
    payload := JsVal.obj
      [("channelId", JsVal.str cid), ("message", JsVal.msgVal msg),
       ("mentionedBy", JsVal.usrVal actingUser)] }

/-- The push notification body:
`content.length > 100 ? content.substring(0, 100) + '...' : content`. -/
def pushBody (content : String) : String :=
  if 100 < content.data.length then String.mk (content.data.take 100) ++ "..."
  else content

/-- The `sendPushToUser` trigger issued for a matched member. -/
def mentionPushFor (ch : ChannelR) (msg : Message) (actingUser : UserR)
    (content : String) (p : WorkspaceMemberR × UserR) : PushCall :=
  { userId := p.1.userId,
    payload :=
      { title := actingUser.displayName ++ " mentioned you",
        body := pushBody content,
        tag := "mention-" ++ msg.id,
        url := "/workspace/" ++ ch.workspaceId ++ "?channel=" ++ ch.id,
        channelId := ch.id,
        workspaceId := ch.workspaceId } }

/-- The mention block of the create handler: guarded by the regex match
being non-null (`if (mentions)`), then emits a `mention` event and triggers
a push for each resolved member. -/
def mentionActions (db : DB) (ch : ChannelR) (actingUser : UserR)
    (content : String) (msg : Message) : List EmitEvent × List PushCall :=
  match extractMentions content with
  | [] => ([], [])
  | _ :: _ =>
    let mentioned := mentionedOf db ch.workspaceId content
    (mentioned.map (mentionEventFor ch.id msg actingUser),
     mentioned.map (mentionPushFor ch msg actingUser content))

/-! ### Thread & Pagination Engine: POST /channel/:channelId

The create handler.  It runs behind `authenticate` and `isChannelMember`,
so it receives the verified user (`req.user`) and the channel row loaded by
the middleware (`req.channel`, whose id equals the `channelId` path
parameter).  `newId` and `now` stand for the id and `createdAt` the store
assigns to the inserted row.  Attachments do not interact with any verified
property and are omitted from the embedding. -/

/-- The outcome of the create handler: HTTP result, resulting database,
emitted socket events and triggered push deliveries. -/
structure CreateOutcome where
  result : Except HErr Message
  db : DB
  events : List EmitEvent
  pushes : List PushCall

/-- The row the store inserts for a create call. -/
def newMessage (ch : ChannelR) (u : UserR) (c : String)
    (parentId : Option String) (newId : String) (now : Nat) : Message :=
  { id := newId, channelId := ch.id, authorId := u.id,
    content := jsTrim c, parentId := parentId, createdAt := now }

/-- The channel-room broadcast of the create handler: `message:reply` with
`{ parentId, message }` for a reply, else `message:new` with the full
record. -/
def broadcastEventFor (ch : ChannelR) (parentId : Option String)
    (msg : Message) : EmitEvent :=
  if jsTruthy parentId then
    { room := "channel:" ++ ch.id, name := "message:reply",
      payload := JsVal.obj
        [("parentId", JsVal.str (parentId.getD "")), ("message", JsVal.msgVal msg)] }
  else
    { room := "channel:" ++ ch.id, name := "message:new", payload := JsVal.msgVal msg }

/-- The insert-and-broadcast tail of the create handler, reached after
content and parent validation. -/
def finishCreate (db : DB) (ch : ChannelR) (actingUser : UserR) (c : String)
    (parentId : Option String) (newId : String) (now : Nat) : CreateOutcome :=
  let msg := newMessage ch actingUser c parentId newId now
  let db2 : DB := { db with messages := db.messages ++ [msg] }
  let acts := mentionActions db2 ch actingUser c msg
  { result := Except.ok msg, db := db2,
    events := broadcastEventFor ch parentId msg :: acts.1, pushes := acts.2 }

/-- POST /channel/:channelId.  Validation order as in the source: falsy or
whitespace-only content is a 400 (`!content || content.trim().length === 0`
short-circuits, so the `none` and empty cases land in the same 400);
a truthy `parentId` must name an existing message of the same channel whose
own `parentId` is falsy, else 400; then the row is inserted and broadcast
and mentions are processed. -/
def createMessage (db : DB) (ch : ChannelR) (actingUser : UserR)
    (content : Option String) (parentId : Option String) (newId : String)
    (now : Nat) : CreateOutcome :=
  match content with
  | none => { result := Except.error HErr.badRequest, db := db, events := [], pushes := [] }
  | some c =>
    if jsTrim c = "" then
      { result := Except.error HErr.badRequest, db := db, events := [], pushes := [] }
    else if jsTruthy parentId then
      match findMessage db (parentId.getD "") with
      | none => { result := Except.error HErr.badRequest, db := db, events := [], pushes := [] }
      | some parent =>
        if parent.channelId ≠ ch.id then
          { result := Except.error HErr.badRequest, db := db, events := [], pushes := [] }
        else if jsTruthy parent.parentId then
          { result := Except.error HErr.badRequest, db := db, events := [], pushes := [] }
        else finishCreate db ch actingUser c parentId newId now
    else finishCreate db ch actingUser c parentId newId now

/-- The one-level thread invariant of spec §3: every message with a
non-null `parentId` references a message of the same channel whose own
`parentId` is null. -/
def ThreadInvariant (db : DB) : Prop :=
  ∀ m ∈ db.messages,
    m.parentId = none ∨
    ∃ par ∈ db.messages, some par.id = m.parentId ∧ par.channelId = m.channelId ∧
      par.parentId = none

instance (db : DB) : Decidable (ThreadInvariant db) :=
  inferInstanceAs (Decidable (∀ m ∈ db.messages,
    m.parentId = none ∨
    ∃ par ∈ db.messages, some par.id = m.parentId ∧ par.channelId = m.channelId ∧
      par.parentId = none))

/-- Store-generated ids are never the empty string (cuids are nonempty). -/
def NonemptyIds (db : DB) : Prop :=
  ∀ m ∈ db.messages, m.id ≠ ""

instance (db : DB) : Decidable (NonemptyIds db) :=
  inferInstanceAs (Decidable (∀ m ∈ db.messages, m.id ≠ ""))

/-! ### Thread & Pagination Engine: GET /:messageId/replies -/

instance : DecidableRel createdAsc := fun _ _ => Nat.decLe _ _

instance : IsTotal Message createdAsc :=
  ⟨fun a b => Nat.le_total a.createdAt b.createdAt⟩

instance : IsTrans Message createdAsc :=
  ⟨fun _ _ _ h1 h2 => Nat.le_trans h1 h2⟩

/-- The replies of a top-level message, oldest first
(`orderBy: { createdAt: 'asc' }`, modelled by a stable insertion sort). -/
def repliesOf (db : DB) (mid : String) : List Message :=
  List.insertionSort createdAsc (db.messages.filter (fun m => m.parentId = some mid))

/-- GET /:messageId/replies.  Loads the message with its channel; a missing
message is a 404.  The access check runs only when the channel is private
(channel membership required, else 403); for a public channel no check at
all is performed — in particular workspace membership of the requester is
never consulted.  A missing channel row would make `channel.isPrivate`
throw, caught as a 500 (it cannot occur under referential integrity). -/
def getReplies (db : DB) (uid mid : String) : Except HErr (List Message) :=
  match findMessage db mid with
  | none => Except.error HErr.notFound
  | some m =>
    match findChannel db m.channelId with
    | none => Except.error HErr.server
    | some ch =>
      if ch.isPrivate then
        if chanMemberExists db uid ch.id then Except.ok (repliesOf db mid)
        else Except.error HErr.forbidden
      else Except.ok (repliesOf db mid)

/-! ### Thread & Pagination Engine: PUT /:messageId -/

/-- The outcome of the update handler. -/
structure UpdateOutcome where
  result : Except HErr Message
  db : DB
  events : List EmitEvent

/-- PUT /:messageId.  Missing message is a 404; a non-author is a 403.
There is no content validation: a present content string is stored as
`content.trim()` (so whitespace-only content persists the empty string),
while an absent content field makes `content.trim()` throw a `TypeError`
— after the author check and before any write — caught as a 500. -/
def updateMessage (db : DB) (uid mid : String) (content : Option String) :
    UpdateOutcome :=
  match findMessage db mid with
  | none => { result := Except.error HErr.notFound, db := db, events := [] }
  | some m =>
    if m.authorId ≠ uid then
      { result := Except.error HErr.forbidden, db := db, events := [] }
    else
      match content with
      | none => { result := Except.error HErr.server, db := db, events := [] }
      | some c =>
        let m2 : Message := { m with content := jsTrim c }
        { result := Except.ok m2,
          db := { db with
            messages := db.messages.map
              (fun x => if x.id = mid then { x with content := jsTrim c } else x) },
          events := [{ room := "channel:" ++ m.channelId, name := "message:updated",
                       payload := JsVal.msgVal m2 }] }

/-! ### Connection Gateway: the channel:join socket handler

The handler looks the channel up; a missing channel is a silent return.
A private channel requires an explicit channel membership row, a public
channel requires workspace membership in the channel's workspace; a failed
check is a silent return.  Only when every check passes does the connection
join the room `channel:<id>`.  The handler surfaces no error in any case
(its `catch` only logs), which the embedding reflects by returning the
connection's room set and nothing else. -/

/-- `socket.join`: socket.io room membership is a set, so joining an
already-joined room is a no-op. -/
def joinRoom (r : String) (rooms : List String) : List String :=
  if r ∈ rooms then rooms else r :: rooms

/-- The `channel:join` handler, as a function from the connection's current
room set to its new room set. -/
def channelJoin (db : DB) (uid cid : String) (rooms : List String) : List String :=
  match findChannel db cid with
  | none => rooms
  | some ch =>
    if ch.isPrivate then
      if chanMemberExists db uid cid then joinRoom ("channel:" ++ cid) rooms
      else rooms
    else
      if wsMemberExists db uid ch.workspaceId then joinRoom ("channel:" ++ cid) rooms
      else rooms

/-! ### Push Delivery Worker: sendPushToUser

The worker returns immediately when the VAPID public key is not configured
(a falsy environment value).  Otherwise it fetches all of the user's
subscriptions and attempts delivery to each one; the per-subscription
`catch` deletes the subscription when the transport rejects with status
404 or 410 and ignores every other failure, so one endpoint's outcome
never affects the attempts to the others.  The push transport is modelled
as a function from endpoint to outcome. -/

/-- The outcome of one web-push delivery attempt. -/
inductive PushOutcome where
  | delivered
  | failed (statusCode : Nat)
deriving DecidableEq

/-- Whether a delivery outcome is a 404/410 "endpoint gone" rejection. -/
def isGoneB : PushOutcome → Bool
  | PushOutcome.failed s => s = 404 || s = 410
  | PushOutcome.delivered => false

/-- The user's subscriptions (`pushSubscription.findMany({ where: { userId } })`). -/
def userSubs (db : DB) (uid : String) : List PushSubR :=
  db.pushSubs.filter (fun s => s.userId = uid)

/-- The effect of one delivery attempt on the subscription table: a gone
endpoint's row is deleted (by its id), any other outcome leaves the table
unchanged. -/
def pruneOne (outcome : String → PushOutcome) (subs : List PushSubR)
    (sub : PushSubR) : List PushSubR :=
  if isGoneB (outcome sub.endpoint) then subs.filter (fun t => t.id ≠ sub.id)
  else subs

/-- `sendPushToUser(userId, payload)`: returns the resulting database and
the list of endpoints to which a delivery attempt was made (one attempt
per subscription, in subscription order, regardless of the other
attempts' outcomes). -/
def sendPushToUser (vapidPublicKey : Option String)
    (outcome : String → PushOutcome) (db : DB) (uid : String)
    (_payload : PushPayload) : DB × List String :=
  if !jsTruthy vapidPublicKey then (db, [])
  else
    let subs := userSubs db uid
    ({ db with pushSubs := subs.foldl (pruneOne outcome) db.pushSubs },
     subs.map (·.endpoint))

/-! ### Concrete database fixtures used by counterexamples and witnesses -/

/-- A member of workspace W who has no channel memberships. -/
def uReq : UserR := { id := "u", displayName := "U" }

/-- The author of the secret message. -/
def uOther : UserR := { id := "x", displayName := "X" }

/-- A private channel of workspace W. -/
def chSecret : ChannelR := { id := "C", workspaceId := "W", isPrivate := true }

/-- A message in the private channel. -/
def mSecret : Message :=
  { id := "m1", channelId := "C", authorId := "x", content := "secret hello",
    parentId := none, createdAt := 1 }

/-- Fixture for the search claims: user `u` is a member of workspace `W`
but not of the private channel `C` that holds `mSecret`. -/
def dbSearch : DB :=
  { users := [uReq, uOther],
    workspaceMembers := [{ userId := "u", workspaceId := "W", role := "MEMBER" }],
    channels := [chSecret],
    channelMembers := [],
    messages := [mSecret],
    pushSubs := [] }

/-- Fixture with a single top-level message in channel `c`. -/
def dbOneMsg : DB :=
  { users := [], workspaceMembers := [], channels := [], channelMembers := [],
    messages := [{ id := "m1", channelId := "c", authorId := "a", content := "x",
                   parentId := none, createdAt := 1 }],
    pushSubs := [] }

/-- Two top-level messages with identical timestamps and distinct ids. -/
def msgTieA : Message :=
  { id := "a", channelId := "c", authorId := "u", content := "x",
    parentId := none, createdAt := 5 }

def msgTieB : Message :=
  { id := "b", channelId := "c", authorId := "u", content := "x",
    parentId := none, createdAt := 5 }

/-- The same two rows in the two possible storage orders. -/
def dbTieAB : DB :=
  { users := [], workspaceMembers := [], channels := [], channelMembers := [],
    messages := [msgTieA, msgTieB], pushSubs := [] }

def dbTieBA : DB :=
  { users := [], workspaceMembers := [], channels := [], channelMembers := [],
    messages := [msgTieB, msgTieA], pushSubs := [] }

/-- Members of workspace W for the mention fixture. -/
def uAlice : UserR := { id := "alice", displayName := "Alice" }

def uBob : UserR := { id := "bob", displayName := "Bob" }

/-- A public channel of workspace W. -/
def chPub : ChannelR := { id := "C", workspaceId := "W", isPrivate := false }

/-- Fixture for the mention claims: Alice and Bob are members of W. -/
def dbMention : DB :=
  { users := [uAlice, uBob],
    workspaceMembers := [{ userId := "alice", workspaceId := "W", role := "MEMBER" },
                         { userId := "bob", workspaceId := "W", role := "ADMIN" }],
    channels := [chPub],
    channelMembers := [],
    messages := [],
    pushSubs := [] }

/-- Bob sends the scenario-B message mentioning Alice. -/
def outMention : CreateOutcome :=
  createMessage dbMention chPub uBob (some "@Alice check the setlist") none "m1" 10

/-- The row the store creates for the scenario-B message. -/
def msgMention : Message :=
  { id := "m1", channelId := "C", authorId := "bob",
    content := "@Alice check the setlist", parentId := none, createdAt := 10 }

/-- Fixture for the thread claims: a top-level message `p1` and a reply
`r1` to it, both in the public channel `C` of workspace W. -/
def mTop : Message :=
  { id := "p1", channelId := "C", authorId := "bob", content := "top",
    parentId := none, createdAt := 1 }

def mReply : Message :=
  { id := "r1", channelId := "C", authorId := "alice", content := "re",
    parentId := some "p1", createdAt := 2 }

def dbThread : DB := { dbMention with messages := [mTop, mReply] }

/-- Fixture for the socket-join claim: a private channel `P` and the public
channel `C`, both in W. -/
def chPriv : ChannelR := { id := "P", workspaceId := "W", isPrivate := true }

def dbJoin : DB := { dbMention with channels := [chPriv, chPub] }

/-- Push subscriptions: two for user `u` (one endpoint gone, one failing
transiently) and one for another user. -/
def subE1 : PushSubR :=
  { id := "s1", userId := "u", endpoint := "e1", p256dh := "k1", keyAuth := "a1" }

def subE2 : PushSubR :=
  { id := "s2", userId := "u", endpoint := "e2", p256dh := "k2", keyAuth := "a2" }

def subE3 : PushSubR :=
  { id := "s3", userId := "v", endpoint := "e3", p256dh := "k3", keyAuth := "a3" }

def dbPush : DB := { dbMention with pushSubs := [subE1, subE2, subE3] }

/-- A push transport where endpoint `e1` is gone (410), `e2` fails with a
server error and every other endpoint accepts delivery. -/
def outcomeFix : String → PushOutcome := fun e =>
  if e = "e1" then PushOutcome.failed 410
  else if e = "e2" then PushOutcome.failed 500
  else PushOutcome.delivered

/-- A sample push payload. -/
def payloadFix : PushPayload :=
  { title := "t", body := "b", tag := "g", url := "/w", channelId := "C",
    workspaceId := "W" }

end Bandchat

namespace Bandchat

/-! ## Theorems -/

/-- Membership in a socket.io room set after a join. -/
theorem mem_joinRoom {r s : String} {rooms : List String} :
    r ∈ joinRoom s rooms ↔ r = s ∨ r ∈ rooms := by
  by_cases h : s ∈ rooms
  · rw [joinRoom, if_pos h]
    constructor
    · exact Or.inr
    · rintro (rfl | hr)
      · exact h
      · exact hr
  · rw [joinRoom, if_neg h]
    exact List.mem_cons

/-- C6: a `channel:join` request joins the connection to the room
`channel:<id>` iff the channel exists and the requester passes the
membership check — an explicit channel membership row when the channel is
private, a workspace membership row in the channel's workspace when it is
public.  When any check fails the room set is unchanged, and the handler's
return type carries no error at all, so no error is surfaced to the
caller. -/
theorem channelJoin_spec (db : DB) (uid cid : String) (rooms : List String)
    (r : String) :
    r ∈ channelJoin db uid cid rooms ↔
      (r ∈ rooms ∨
        (r = "channel:" ++ cid ∧
          ∃ ch, findChannel db cid = some ch ∧
            (ch.isPrivate = true → chanMemberExists db uid cid = true) ∧
            (ch.isPrivate = false → wsMemberExists db uid ch.workspaceId = true))) := by
  cases hch : findChannel db cid with
  | none =>
    have hred : channelJoin db uid cid rooms = rooms := by
      simp [channelJoin, hch]
    rw [hred]
    constructor
    · exact Or.inl
    · rintro (hr | ⟨-, ch, hc, -⟩)
      · exact hr
      · exact absurd hc (by simp)
  | some ch =>
    cases hp : ch.isPrivate with
    | true =>
      cases hmem : chanMemberExists db uid cid with
      | true =>
        have hred : channelJoin db uid cid rooms = joinRoom ("channel:" ++ cid) rooms := by
          simp [channelJoin, hch, hp, hmem]
        rw [hred, mem_joinRoom]
        constructor
        · rintro (hr | hr)
          · exact Or.inr ⟨hr, ch, rfl, fun _ => rfl, fun hcontra => absurd hcontra (by simp [hp])⟩
          · exact Or.inl hr
        · rintro (hr | ⟨hr, -⟩)
          · exact Or.inr hr
          · exact Or.inl hr
      | false =>
        have hred : channelJoin db uid cid rooms = rooms := by
          simp [channelJoin, hch, hp, hmem]
        rw [hred]
        constructor
        · exact Or.inl
        · rintro (hr | ⟨-, ch2, hc2, hpriv2, -⟩)
          · exact hr
          · cases Option.some.inj hc2
            exact absurd (hpriv2 hp) (by simp)
    | false =>
      cases hmem : wsMemberExists db uid ch.workspaceId with
      | true =>
        have hred : channelJoin db uid cid rooms = joinRoom ("channel:" ++ cid) rooms := by
          simp [channelJoin, hch, hp, hmem]
        rw [hred, mem_joinRoom]
        constructor
        · rintro (hr | hr)
          · exact Or.inr ⟨hr, ch, rfl, fun hcontra => absurd hcontra (by simp [hp]), fun _ => hmem⟩
          · exact Or.inl hr
        · rintro (hr | ⟨hr, -⟩)
          · exact Or.inr hr
          · exact Or.inl hr
      | false =>
        have hred : channelJoin db uid cid rooms = rooms := by
          simp [channelJoin, hch, hp, hmem]
        rw [hred]
        constructor
        · exact Or.inl
        · rintro (hr | ⟨-, ch2, hc2, -, hpub2⟩)
          · exact hr
          · cases Option.some.inj hc2
            exact absurd (hpub2 hp) (by simp [hmem])

/-- Witness for C6 at concrete inputs: Alice may not join the private
channel P of her workspace (silent no-op), but may join the public channel
C; a non-member of the workspace may join neither. -/
theorem channelJoin_spec_witness :
    ("channel:P" ∉ channelJoin dbJoin "alice" "P" []) ∧
    ("channel:C" ∈ channelJoin dbJoin "alice" "C" []) ∧
    ("channel:C" ∉ channelJoin dbJoin "stranger" "C" []) := by
  refine ⟨fun hmem => ?_, ?_, fun hmem => ?_⟩
  · rcases (channelJoin_spec dbJoin "alice" "P" [] "channel:P").mp hmem with h | ⟨-, ch, hc, hpriv, -⟩
    · simp at h
    · have hch : ch = chPriv := by
        have : findChannel dbJoin "P" = some chPriv := rfl
        rw [this] at hc
        exact (Option.some.inj hc).symm
      subst hch
      exact absurd (hpriv rfl) (by decide)
  · exact (channelJoin_spec dbJoin "alice" "C" [] "channel:C").mpr
      (Or.inr ⟨rfl, chPub, rfl, fun h => absurd h (by decide), fun _ => by decide⟩)
  · rcases (channelJoin_spec dbJoin "stranger" "C" [] "channel:C").mp hmem with h | ⟨-, ch, hc, -, hpub⟩
    · simp at h
    · have hch : ch = chPub := by
        have : findChannel dbJoin "C" = some chPub := rfl
        rw [this] at hc
        exact (Option.some.inj hc).symm
      subst hch
      exact absurd (hpub rfl) (by decide)

/-- C9: for a message whose channel is public, the replies endpoint
performs no access check at all — the channel-membership check runs only
in the private branch — so any authenticated requester, member of the
channel's workspace or not, receives the replies. -/
theorem getReplies_public_no_membership_check
    (db : DB) (uid mid : String) (m : Message) (ch : ChannelR)
    (hm : findMessage db mid = some m)
    (hch : findChannel db m.channelId = some ch)
    (hpub : ch.isPrivate = false) :
    getReplies db uid mid = Except.ok (repliesOf db mid) := by
  simp [getReplies, hm, hch, hpub]

/-- Witness for C9: the requester `stranger` has neither a workspace
membership nor a channel membership, yet receives the reply list of the
message `p1` in the public channel C. -/
theorem getReplies_public_no_membership_check_witness :
    wsMemberExists dbThread "stranger" "W" = false ∧
    chanMemberExists dbThread "stranger" "C" = false ∧
    getReplies dbThread "stranger" "p1" = Except.ok [mReply] := by
  refine ⟨rfl, rfl, ?_⟩
  have h := getReplies_public_no_membership_check dbThread "stranger" "p1" mTop chPub
    rfl rfl rfl
  exact h

/-- Replacing the content of the rows with a given id commutes with
looking that id up: the lookup finds the updated row. -/
theorem find?_update_content (l : List Message) (mid c : String) :
    (l.map (fun x => if x.id = mid then { x with content := c } else x)).find?
        (fun m => m.id = mid) =
      (l.find? (fun m => m.id = mid)).map (fun m => { m with content := c }) := by
  induction l with
  | nil => rfl
  | cons a t ih =>
    by_cases h : a.id = mid
    · simp [List.find?_cons, h]
    · simp [List.find?_cons, h, ih]

/-- Trimming a whitespace-only string yields the empty string. -/
theorem jsTrim_of_all_ws {c : String} (h : ∀ x ∈ c.data, isWsChar x = true) :
    jsTrim c = "" := by
  have h1 : c.data.dropWhile isWsChar = [] := List.dropWhile_eq_nil_iff.mpr h
  simp [jsTrim, jsTrimList, h1]

/-- C10: the update handler validates nothing about the content, in
contrast with the create handler.  After the message lookup: a non-author
is rejected with 403 no matter what the content field holds (even when it
is absent); for the author, an absent content field makes
`content.trim()` throw — a generic 500 — after the author check and with
the database untouched, while any present content string (empty or
whitespace-only included) is persisted as its trim, so whitespace-only
content persists the empty string. -/
theorem updateMessage_no_content_validation
    (db : DB) (uid mid : String) (m : Message)
    (hm : findMessage db mid = some m) :
    (m.authorId ≠ uid →
      ∀ content, updateMessage db uid mid content =
        { result := Except.error HErr.forbidden, db := db, events := [] }) ∧
    (m.authorId = uid →
      updateMessage db uid mid none =
        { result := Except.error HErr.server, db := db, events := [] }) ∧
    (m.authorId = uid → ∀ c,
      (updateMessage db uid mid (some c)).result =
        Except.ok { m with content := jsTrim c } ∧
      findMessage (updateMessage db uid mid (some c)).db mid =
        some { m with content := jsTrim c } ∧
      ((∀ x ∈ c.data, isWsChar x = true) →
        (updateMessage db uid mid (some c)).result =
          Except.ok { m with content := "" })) := by
  refine ⟨?_, ?_, ?_⟩
  · intro hauthor content
    simp [updateMessage, hm, hauthor]
  · intro hauthor
    simp [updateMessage, hm, hauthor]
  · intro hauthor c
    have hred : updateMessage db uid mid (some c) =
        { result := Except.ok { m with content := jsTrim c },
          db := { db with
            messages := db.messages.map
              (fun x => if x.id = mid then { x with content := jsTrim c } else x) },
          events := [{ room := "channel:" ++ m.channelId, name := "message:updated",
                       payload := JsVal.msgVal { m with content := jsTrim c } }] } := by
      simp [updateMessage, hm, hauthor]
    refine ⟨by rw [hred], ?_, ?_⟩
    · rw [hred]
      show (db.messages.map
          (fun x => if x.id = mid then { x with content := jsTrim c } else x)).find?
            (fun x => x.id = mid) = _
      rw [find?_update_content]
      show (findMessage db mid).map _ = _
      rw [hm]
      rfl
    · intro hws
      rw [hred, jsTrim_of_all_ws hws]

/-- Witness for C10: Bob edits his own message with whitespace-only
content and the empty string is persisted; an absent content field gives a
500 with the database unchanged; Alice (not the author) gets a 403 even
with an absent content field. -/
theorem updateMessage_no_content_validation_witness :
    (updateMessage dbThread "bob" "p1" (some "   ")).result =
      Except.ok { mTop with content := "" } ∧
    updateMessage dbThread "bob" "p1" none =
      { result := Except.error HErr.server, db := dbThread, events := [] } ∧
    updateMessage dbThread "alice" "p1" none =
      { result := Except.error HErr.forbidden, db := dbThread, events := [] } := by
  have h := updateMessage_no_content_validation dbThread "bob" "p1" mTop rfl
  have h2 := updateMessage_no_content_validation dbThread "alice" "p1" mTop rfl
  exact ⟨(h.2.2 rfl "   ").2.2 (by decide), h.2.1 rfl, h2.1 (by decide) none⟩

/-- A row survives the sequence of per-subscription prunes exactly when no
processed subscription both had a gone endpoint and carried the row's id. -/
theorem mem_foldl_pruneOne (o : String → PushOutcome) :
    ∀ (todo L : List PushSubR) (t : PushSubR),
      t ∈ todo.foldl (pruneOne o) L ↔
        (t ∈ L ∧ ∀ s ∈ todo, isGoneB (o s.endpoint) = true → t.id ≠ s.id) := by
  intro todo
  induction todo with
  | nil => simp
  | cons s rest ih =>
    intro L t
    rw [List.foldl_cons, ih]
    unfold pruneOne
    by_cases h : isGoneB (o s.endpoint) = true
    · rw [if_pos h]
      simp only [List.mem_filter, List.mem_cons]
      constructor
      · rintro ⟨⟨h1, h2⟩, h3⟩
        refine ⟨h1, ?_⟩
        rintro s2 (rfl | hs2) hg
        · simpa using h2
        · exact h3 s2 hs2 hg
      · rintro ⟨h1, h2⟩
        exact ⟨⟨h1, by simpa using h2 s (Or.inl rfl) h⟩,
          fun s2 hs2 hg => h2 s2 (Or.inr hs2) hg⟩
    · rw [if_neg h]
      simp only [List.mem_cons]
      constructor
      · rintro ⟨h1, h2⟩
        refine ⟨h1, ?_⟩
        rintro s2 (rfl | hs2) hg
        · exact absurd hg h
        · exact h2 s2 hs2 hg
      · rintro ⟨h1, h2⟩
        exact ⟨h1, fun s2 hs2 hg => h2 s2 (Or.inr hs2) hg⟩

/-- C7: `sendPushToUser` is a no-op when no VAPID public key is
configured.  Otherwise exactly one delivery attempt is made per
subscription of the user — the attempt list is the full subscription list
regardless of any attempt's outcome, so one endpoint's failure never
suppresses the others, and no endpoint is attempted twice.  A subscription
is deleted iff it belongs to the user and its endpoint rejected with 404
or 410; every other failure leaves the subscription in place, and no other
table is touched.  Hypotheses: subscription ids are unique (primary key)
and endpoints are unique (the subscribe route upserts keyed by
endpoint). -/
theorem sendPushToUser_spec (k : Option String) (o : String → PushOutcome)
    (db : DB) (uid : String) (pl : PushPayload)
    (hid : (db.pushSubs.map (·.id)).Nodup)
    (hep : (db.pushSubs.map (·.endpoint)).Nodup) :
    (jsTruthy k = false → sendPushToUser k o db uid pl = (db, [])) ∧
    (jsTruthy k = true →
      (sendPushToUser k o db uid pl).2 = (userSubs db uid).map (·.endpoint) ∧
      (sendPushToUser k o db uid pl).2.Nodup ∧
      (∀ t, t ∈ (sendPushToUser k o db uid pl).1.pushSubs ↔
        (t ∈ db.pushSubs ∧ (t.userId = uid → isGoneB (o t.endpoint) = false))) ∧
      (sendPushToUser k o db uid pl).1.messages = db.messages ∧
      (sendPushToUser k o db uid pl).1.channels = db.channels) := by
  constructor
  · intro hk
    simp [sendPushToUser, hk]
  · intro hk
    have hred : sendPushToUser k o db uid pl =
        ({ db with pushSubs := (userSubs db uid).foldl (pruneOne o) db.pushSubs },
          (userSubs db uid).map (·.endpoint)) := by
      simp [sendPushToUser, hk]
    rw [hred]
    refine ⟨rfl, ?_, ?_, rfl, rfl⟩
    · exact List.Nodup.sublist ((List.filter_sublist db.pushSubs).map (·.endpoint)) hep
    · intro t
      rw [mem_foldl_pruneOne]
      constructor
      · rintro ⟨h1, h2⟩
        refine ⟨h1, fun hu => ?_⟩
        cases hg : isGoneB (o t.endpoint) with
        | false => rfl
        | true =>
          exact absurd rfl
            (h2 t (List.mem_filter.mpr ⟨h1, by simp [hu]⟩) hg)
      · rintro ⟨h1, h2⟩
        refine ⟨h1, fun s hs hg hid2 => ?_⟩
        have hsmem : s ∈ db.pushSubs := (List.mem_filter.mp hs).1
        have hsuid : s.userId = uid := by
          have := (List.mem_filter.mp hs).2
          simpa [userSubs] using this
        have : s = t := List.inj_on_of_nodup_map hid hsmem h1 hid2.symm
        subst this
        exact absurd hg (by simp [h2 hsuid])

/-- Witness for C7 (scenario C): with no key configured the call is a
no-op.  With a key, both of user `u`'s endpoints are attempted even though
the first is gone; the gone subscription is removed while the one that
failed transiently and the other user's subscription survive. -/
theorem sendPushToUser_spec_witness :
    sendPushToUser none outcomeFix dbPush "u" payloadFix = (dbPush, []) ∧
    (sendPushToUser (some "K") outcomeFix dbPush "u" payloadFix).2 = ["e1", "e2"] ∧
    subE1 ∉ (sendPushToUser (some "K") outcomeFix dbPush "u" payloadFix).1.pushSubs ∧
    subE2 ∈ (sendPushToUser (some "K") outcomeFix dbPush "u" payloadFix).1.pushSubs ∧
    subE3 ∈ (sendPushToUser (some "K") outcomeFix dbPush "u" payloadFix).1.pushSubs := by
  have h0 := sendPushToUser_spec none outcomeFix dbPush "u" payloadFix
    (by decide) (by decide)
  have h := sendPushToUser_spec (some "K") outcomeFix dbPush "u" payloadFix
    (by decide) (by decide)
  refine ⟨h0.1 rfl, ?_, ?_, ?_, ?_⟩
  · rw [(h.2 rfl).1]
    rfl
  · intro hmem
    have h2 := ((h.2 rfl).2.2.1 subE1).mp hmem
    exact absurd (h2.2 rfl) (by decide)
  · exact ((h.2 rfl).2.2.1 subE2).mpr ⟨by decide, fun _ => by decide⟩
  · exact ((h.2 rfl).2.2.1 subE3).mpr ⟨by decide, fun hcontra => absurd hcontra (by decide)⟩

/-- The database after the insert-and-broadcast tail of the create
handler. -/
theorem finishCreate_db (db : DB) (ch : ChannelR) (u : UserR) (c : String)
    (pid : Option String) (newId : String) (now : Nat) :
    (finishCreate db ch u c pid newId now).db =
      { db with messages := db.messages ++
          [{ id := newId, channelId := ch.id, authorId := u.id,
             content := jsTrim c, parentId := pid, createdAt := now }] } := rfl

/-- The HTTP result of the insert-and-broadcast tail of the create
handler. -/
theorem finishCreate_result (db : DB) (ch : ChannelR) (u : UserR) (c : String)
    (pid : Option String) (newId : String) (now : Nat) :
    (finishCreate db ch u c pid newId now).result =
      Except.ok { id := newId, channelId := ch.id, authorId := u.id,
                  content := jsTrim c, parentId := pid, createdAt := now } := rfl

/-- C2: for a create call with valid content and a non-null (and, as for
every store-generated id, nonempty) `parentId`, the message is created iff
the parent exists, lies in the same channel and is itself top-level;
otherwise the handler answers 400 before any write, leaving the database
unchanged.  The created reply carries exactly this `parentId` and channel,
so the one-level thread invariant is preserved by every such call. -/
theorem create_reply_validation
    (db : DB) (ch : ChannelR) (actingUser : UserR) (c p newId : String)
    (now : Nat)
    (hc : jsTrim c ≠ "") (hp : p ≠ "")
    (hids : NonemptyIds db) (hinv : ThreadInvariant db) :
    ((∃ m, (createMessage db ch actingUser (some c) (some p) newId now).result =
        Except.ok m) ↔
      (∃ par, findMessage db p = some par ∧ par.channelId = ch.id ∧
        par.parentId = none)) ∧
    ((¬ ∃ par, findMessage db p = some par ∧ par.channelId = ch.id ∧
        par.parentId = none) →
      (createMessage db ch actingUser (some c) (some p) newId now).result =
        Except.error HErr.badRequest ∧
      (createMessage db ch actingUser (some c) (some p) newId now).db = db) ∧
    ThreadInvariant (createMessage db ch actingUser (some c) (some p) newId now).db ∧
    (∀ m, (createMessage db ch actingUser (some c) (some p) newId now).result =
        Except.ok m →
      m.parentId = some p ∧ m.channelId = ch.id) := by
  have htr : jsTruthy (some p) = true := by simp [jsTruthy, hp]
  cases hfind : findMessage db p with
  | none =>
    have hred : createMessage db ch actingUser (some c) (some p) newId now =
        { result := Except.error HErr.badRequest, db := db, events := [], pushes := [] } := by
      simp [createMessage, hc, htr, hfind]
    rw [hred]
    refine ⟨?_, fun _ => ⟨rfl, rfl⟩, hinv, by simp⟩
    constructor
    · rintro ⟨m, hm⟩
      exact absurd hm (by simp)
    · rintro ⟨par, hpar, -⟩
      exact absurd hpar (by simp)
  | some par =>
    have hparmem : par ∈ db.messages := List.mem_of_find?_eq_some hfind
    have hparid : par.id = p := by
      have := List.find?_some hfind
      simpa using this
    by_cases hchan : par.channelId = ch.id
    · by_cases hpp : jsTruthy par.parentId = true
      · -- the parent is itself a reply: rejected
        have hred : createMessage db ch actingUser (some c) (some p) newId now =
            { result := Except.error HErr.badRequest, db := db, events := [], pushes := [] } := by
          simp [createMessage, hc, htr, hfind, hchan, hpp]
        rw [hred]
        refine ⟨?_, fun _ => ⟨rfl, rfl⟩, hinv, by simp⟩
        constructor
        · rintro ⟨m, hm⟩
          exact absurd hm (by simp)
        · rintro ⟨par2, hpar2, -, hnone2⟩
          cases Option.some.inj hpar2
          rw [hnone2] at hpp
          exact absurd hpp (by simp [jsTruthy])
      · -- the parent's own parentId is falsy, hence null for store data
        have hpnone : par.parentId = none := by
          cases hq : par.parentId with
          | none => rfl
          | some q =>
            rcases hinv par hparmem with hn | ⟨gp, hgpmem, hgpid, -, -⟩
            · exact absurd (hq.symm.trans hn) (by simp)
            · rw [hq] at hgpid
              have hqid : gp.id = q := Option.some.inj hgpid
              have : jsTruthy par.parentId = true := by
                rw [hq]
                simp [jsTruthy, hqid ▸ hids gp hgpmem]
              exact absurd this hpp
        have hred : createMessage db ch actingUser (some c) (some p) newId now =
            finishCreate db ch actingUser c (some p) newId now := by
          simp [createMessage, hc, htr, hfind, hchan, hpp]
        refine ⟨?_, fun hno => absurd ⟨par, rfl, hchan, hpnone⟩ hno, ?_, ?_⟩
        · constructor
          · intro _
            exact ⟨par, rfl, hchan, hpnone⟩
          · intro _
            exact ⟨_, by rw [hred, finishCreate_result]⟩
        · rw [hred, finishCreate_db]
          intro m hm
          rcases List.mem_append.mp hm with hmold | hmnew
          · rcases hinv m hmold with hn | ⟨par2, hpm, h1, h2, h3⟩
            · exact Or.inl hn
            · exact Or.inr ⟨par2, List.mem_append_left _ hpm, h1, h2, h3⟩
          · rcases List.mem_singleton.mp hmnew with rfl
            refine Or.inr ⟨par, List.mem_append_left _ hparmem, ?_, ?_, hpnone⟩
            · simp [hparid]
            · simp [hchan]
        · intro m hm
          rw [hred, finishCreate_result] at hm
          cases Except.ok.inj hm
          exact ⟨rfl, rfl⟩
    · -- parent in a different channel: rejected
      have hred : createMessage db ch actingUser (some c) (some p) newId now =
          { result := Except.error HErr.badRequest, db := db, events := [], pushes := [] } := by
        simp [createMessage, hc, htr, hfind, hchan]
      rw [hred]
      refine ⟨?_, fun _ => ⟨rfl, rfl⟩, hinv, by simp⟩
      constructor
      · rintro ⟨m, hm⟩
        exact absurd hm (by simp)
      · rintro ⟨par2, hpar2, hchan2, -⟩
        cases Option.some.inj hpar2
        exact (hchan hchan2).elim

/-- Witness for C2: Bob replies to the top-level message `p1` of channel C
and the reply is created; replying to the reply `r1`, to a missing id, or
from a different channel is rejected with 400 and leaves the database
unchanged. -/
theorem create_reply_validation_witness :
    (∃ m, (createMessage dbThread chPub uBob (some "ok") (some "p1") "m9" 9).result =
      Except.ok m) ∧
    (createMessage dbThread chPub uBob (some "ok") (some "r1") "m9" 9).result =
      Except.error HErr.badRequest ∧
    (createMessage dbThread chPub uBob (some "ok") (some "r1") "m9" 9).db = dbThread := by
  have h := create_reply_validation dbThread chPub uBob "ok" "p1" "m9" 9
    (by decide) (by decide) (by decide) (by decide)
  have h2 := create_reply_validation dbThread chPub uBob "ok" "r1" "m9" 9
    (by decide) (by decide) (by decide) (by decide)
  refine ⟨h.1.mpr ⟨mTop, rfl, rfl, rfl⟩, ?_, ?_⟩
  · exact (h2.2.1 (by decide)).1
  · exact (h2.2.1 (by decide)).2

/-- The store's ordered listing is sorted under the handler's order
relation. -/
theorem sorted_sortedTopLevel (db : DB) (cid : String) :
    List.Sorted createdDesc (sortedTopLevel db cid) :=
  List.sorted_insertionSort createdDesc _

/-- The rows after the cursor form a sublist of the ordered listing. -/
theorem afterCursorRows_sublist (db : DB) (cid : String) (cursor : Option String) :
    (afterCursorRows db cid cursor).Sublist (sortedTopLevel db cid) := by
  unfold afterCursorRows
  split
  · exact (List.drop_sublist _ _).trans (List.dropWhile_sublist _)
  · exact List.Sublist.refl _

/-- The rows after the cursor are sorted under the handler's order
relation. -/
theorem sorted_afterCursorRows (db : DB) (cid : String) (cursor : Option String) :
    List.Sorted createdDesc (afterCursorRows db cid cursor) :=
  List.Pairwise.sublist (afterCursorRows_sublist db cid cursor)
    (sorted_sortedTopLevel db cid)

/-- The head of a chronologically sorted list has the least timestamp. -/
theorem sorted_asc_head_min {l : List Message} (hs : List.Sorted createdAsc l)
    {m : Message} (hh : l.head? = some m) :
    ∀ x ∈ l, m.createdAt ≤ x.createdAt := by
  cases l with
  | nil => cases hh
  | cons a t =>
    cases Option.some.inj hh
    intro x hx
    rcases List.mem_cons.mp hx with rfl | hx2
    · exact Nat.le_refl _
    · exact List.rel_of_sorted_cons hs x hx2

/-- The paginated listing behaves as specified for every effective page
size of at least one: it succeeds, returns at most `take` rows in
chronological order, reports `hasMore` exactly when more rows than the
page size remain after the cursor, and returns as `nextCursor` the id of
the oldest returned row when `hasMore` holds, else null. -/
theorem listTopLevel_ok (db : DB) (cid : String) (cursor : Option String)
    (lim : Int) (hlim : 1 ≤ lim) :
    ∃ p : Page,
      listTopLevel db cid cursor (some lim) = Except.ok p ∧
      p.messages.length ≤ (min lim 100).toNat ∧
      List.Sorted createdAsc p.messages ∧
      p.hasMore = decide ((min lim 100).toNat < (afterCursorRows db cid cursor).length) ∧
      (p.hasMore = true →
        p.messages.length = (min lim 100).toNat ∧
        ∃ m, p.messages.head? = some m ∧ p.nextCursor = some m.id ∧
          ∀ x ∈ p.messages, m.createdAt ≤ x.createdAt) ∧
      (p.hasMore = false →
        p.nextCursor = none ∧
        p.messages.length = (afterCursorRows db cid cursor).length) := by
  have hA : List.Sorted createdDesc (afterCursorRows db cid cursor) :=
    sorted_afterCursorRows db cid cursor
  have hmin1 : (1 : Int) ≤ min lim 100 := le_min hlim (by norm_num)
  have hmin0 : (0 : Int) ≤ min lim 100 := le_trans (by norm_num) hmin1
  have htoNat : ((min lim 100).toNat : Int) = min lim 100 := Int.toNat_of_nonneg hmin0
  have hL1 : 1 ≤ (min lim 100).toNat := by omega
  have hsucc : (min lim 100 + 1).toNat = (min lim 100).toNat + 1 := by omega
  have htp : takeParam (some lim) = min lim 100 := rfl
  have hfr : fetchedRows db cid cursor (min lim 100) =
      (afterCursorRows db cid cursor).take ((min lim 100).toNat + 1) := by
    unfold fetchedRows prismaTake
    rw [if_pos (by omega : (0 : Int) ≤ min lim 100 + 1), hsucc]
  have hflen : (fetchedRows db cid cursor (min lim 100)).length =
      min ((min lim 100).toNat + 1) (afterCursorRows db cid cursor).length := by
    rw [hfr, List.length_take]
  have hhm : hasMoreOf db cid cursor (min lim 100) =
      decide ((min lim 100).toNat < (afterCursorRows db cid cursor).length) := by
    unfold hasMoreOf
    rw [decide_eq_decide, hflen]
    omega
  by_cases hm : (min lim 100).toNat < (afterCursorRows db cid cursor).length
  · -- more rows than the page size remain: hasMore
    have hhm2 : hasMoreOf db cid cursor (min lim 100) = true := by
      rw [hhm]
      simp [hm]
    have hflen2 : (fetchedRows db cid cursor (min lim 100)).length =
        (min lim 100).toNat + 1 := by
      rw [hflen]
      omega
    have hitems : itemsOf db cid cursor (min lim 100) =
        (fetchedRows db cid cursor (min lim 100)).take (min lim 100).toNat := by
      unfold itemsOf
      rw [hhm2, if_pos rfl]
      unfold jsSliceTo
      rw [if_pos hmin0]
    have hilen : (itemsOf db cid cursor (min lim 100)).length = (min lim 100).toNat := by
      rw [hitems, List.length_take, hflen2]
      omega
    have hsorted_items : List.Sorted createdDesc (itemsOf db cid cursor (min lim 100)) := by
      rw [hitems, hfr]
      exact List.Pairwise.sublist
        ((List.take_sublist _ _).trans (List.take_sublist _ _)) hA
    have hchr_sorted :
        List.Sorted createdAsc (itemsOf db cid cursor (min lim 100)).reverse := by
      show List.Pairwise createdAsc (itemsOf db cid cursor (min lim 100)).reverse
      rw [List.pairwise_reverse]
      exact hsorted_items
    have hchr_len : (itemsOf db cid cursor (min lim 100)).reverse.length =
        (min lim 100).toNat := by
      rw [List.length_reverse, hilen]
    obtain ⟨m0, hm0⟩ :
        ∃ m0, (itemsOf db cid cursor (min lim 100)).reverse.head? = some m0 := by
      cases hh : (itemsOf db cid cursor (min lim 100)).reverse.head? with
      | none =>
        have : (itemsOf db cid cursor (min lim 100)).reverse = [] :=
          List.head?_eq_none_iff.mp hh
        rw [this] at hchr_len
        simp at hchr_len
        omega
      | some m0 => exact ⟨m0, rfl⟩
    have hred : listTopLevel db cid cursor (some lim) =
        Except.ok { messages := (itemsOf db cid cursor (min lim 100)).reverse,
                    nextCursor := some m0.id, hasMore := true } := by
      unfold listTopLevel
      rw [htp, hhm2, if_pos (rfl : (true : Bool) = true), hm0]
    refine ⟨_, hred, ?_, hchr_sorted, ?_, ?_, ?_⟩
    · rw [hchr_len]
    · simp [hm]
    · intro _
      exact ⟨hchr_len, m0, hm0, rfl, sorted_asc_head_min hchr_sorted hm0⟩
    · intro hfalse
      cases hfalse
  · -- the fetch exhausted the rows: no more pages
    have hhm2 : hasMoreOf db cid cursor (min lim 100) = false := by
      rw [hhm]
      simp [hm]
    have hitems : itemsOf db cid cursor (min lim 100) =
        fetchedRows db cid cursor (min lim 100) := by
      unfold itemsOf
      rw [hhm2, if_neg (by simp)]
    have hilen : (itemsOf db cid cursor (min lim 100)).length =
        (afterCursorRows db cid cursor).length := by
      rw [hitems, hflen]
      omega
    have hsorted_items : List.Sorted createdDesc (itemsOf db cid cursor (min lim 100)) := by
      rw [hitems, hfr]
      exact List.Pairwise.sublist (List.take_sublist _ _) hA
    have hchr_sorted :
        List.Sorted createdAsc (itemsOf db cid cursor (min lim 100)).reverse := by
      show List.Pairwise createdAsc (itemsOf db cid cursor (min lim 100)).reverse
      rw [List.pairwise_reverse]
      exact hsorted_items
    have hred : listTopLevel db cid cursor (some lim) =
        Except.ok { messages := (itemsOf db cid cursor (min lim 100)).reverse,
                    nextCursor := none, hasMore := false } := by
      unfold listTopLevel
      rw [htp, hhm2, if_neg (by simp)]
    refine ⟨_, hred, ?_, hchr_sorted, ?_, ?_, ?_⟩
    · rw [List.length_reverse, hilen]
      omega
    · simp [hm]
    · intro htrue
      cases htrue
    · intro _
      exact ⟨rfl, by rw [List.length_reverse, hilen]⟩

/-- C3: for every channel and every listing call with an effective page
size `L = min(limit, 100)` of at least one, at most `L` top-level messages
are returned, in chronological order; `hasMore` is true iff strictly more
than `L` top-level messages exist after the cursor; when `hasMore` is
true, `nextCursor` is the id of the oldest returned item (the returned
page is chronological, so its head), and when `hasMore` is false,
`nextCursor` is null. -/
theorem listTopLevel_pagination (db : DB) (cid : String)
    (cursor : Option String) (lim : Int) (hlim : 1 ≤ lim) :
    ∃ p : Page,
      listTopLevel db cid cursor (some lim) = Except.ok p ∧
      p.messages.length ≤ (min lim 100).toNat ∧
      List.Sorted createdAsc p.messages ∧
      p.hasMore = decide ((min lim 100).toNat < (afterCursorRows db cid cursor).length) ∧
      (p.hasMore = true →
        p.messages.length = (min lim 100).toNat ∧
        ∃ m, p.messages.head? = some m ∧ p.nextCursor = some m.id ∧
          ∀ x ∈ p.messages, m.createdAt ≤ x.createdAt) ∧
      (p.hasMore = false →
        p.nextCursor = none ∧
        p.messages.length = (afterCursorRows db cid cursor).length) :=
  listTopLevel_ok db cid cursor lim hlim

/-- Witness for C3 at a concrete listing: one stored message, page size
one, no cursor. -/
theorem listTopLevel_pagination_witness :
    ∃ p : Page,
      listTopLevel dbOneMsg "c" none (some 1) = Except.ok p ∧
      p.messages.length ≤ (min (1 : Int) 100).toNat ∧
      List.Sorted createdAsc p.messages ∧
      p.hasMore = decide ((min (1 : Int) 100).toNat < (afterCursorRows dbOneMsg "c" none).length) ∧
      (p.hasMore = true →
        p.messages.length = (min (1 : Int) 100).toNat ∧
        ∃ m, p.messages.head? = some m ∧ p.nextCursor = some m.id ∧
          ∀ x ∈ p.messages, m.createdAt ≤ x.createdAt) ∧
      (p.hasMore = false →
        p.nextCursor = none ∧
        p.messages.length = (afterCursorRows dbOneMsg "c" none).length) :=
  listTopLevel_pagination dbOneMsg "c" none 1 (by decide)

/-- C4 (amended): the effective page size is `min(limit, 100)` with a
destructuring default of 50 when no limit is given — an upper clamp only.
There is no lower clamp: for every limit of at least 1 the request
succeeds (and limits of 100 or more behave exactly like 100), but a limit
of 0 is not raised to 1 — as the counterexample shows, such a request
fails with a 500 on a nonempty channel. -/
theorem listTopLevel_limit_clamp (db : DB) (cid : String)
    (cursor : Option String) (lim : Int) (hlim : 1 ≤ lim) :
    (∃ p, listTopLevel db cid cursor (some lim) = Except.ok p) ∧
    takeParam (some lim) = min lim 100 ∧
    takeParam none = 50 ∧
    (100 ≤ lim → listTopLevel db cid cursor (some lim) =
      listTopLevel db cid cursor (some 100)) ∧
    listTopLevel db cid cursor none = listTopLevel db cid cursor (some 50) := by
  refine ⟨?_, rfl, rfl, ?_, rfl⟩
  · obtain ⟨p, hp, -⟩ := listTopLevel_ok db cid cursor lim hlim
    exact ⟨p, hp⟩
  · intro h100
    have htp : takeParam (some lim) = takeParam (some 100) := by
      show min lim 100 = min (100 : Int) 100
      omega
    unfold listTopLevel
    rw [htp]

/-- Witness for C4's amended claim: limit 200 succeeds and is clamped to
behave exactly like limit 100. -/
theorem listTopLevel_limit_clamp_witness :
    (∃ p, listTopLevel dbOneMsg "c" none (some 200) = Except.ok p) ∧
    listTopLevel dbOneMsg "c" none (some 200) =
      listTopLevel dbOneMsg "c" none (some 100) := by
  have h := listTopLevel_limit_clamp dbOneMsg "c" none 200 (by decide)
  exact ⟨h.1, h.2.2.2.1 (by decide)⟩

/-- Every token produced by the mention scan is an `@` followed by a
nonempty run of word characters. -/
theorem scanFuel_sound :
    ∀ (fuel : Nat) (l : List Char), ∀ t ∈ scanFuel fuel l,
      ∃ w, t = "@" ++ String.mk w ∧ w ≠ [] ∧ ∀ x ∈ w, isWordChar x = true := by
  intro fuel
  induction fuel with
  | zero =>
    intro l t ht
    simp [scanFuel] at ht
  | succ n ih =>
    intro l t ht
    cases l with
    | nil => simp [scanFuel] at ht
    | cons c rest =>
      rw [scanFuel] at ht
      by_cases hc : c = '@'
      · rw [if_pos hc] at ht
        by_cases hr : rest.takeWhile isWordChar = []
        · rw [if_pos hr] at ht
          exact ih rest t ht
        · rw [if_neg hr] at ht
          rcases List.mem_cons.mp ht with rfl | h2
          · exact ⟨rest.takeWhile isWordChar, rfl, hr,
              fun x hx => List.mem_takeWhile_imp hx⟩
          · exact ih _ t h2
      · rw [if_neg hc] at ht
        exact ih rest t ht

/-- Every extracted mention token is an `@` followed by a nonempty word
run. -/
theorem extractMentions_sound (content : String) :
    ∀ t ∈ extractMentions content,
      ∃ w, t = "@" ++ String.mk w ∧ w ≠ [] ∧ ∀ x ∈ w, isWordChar x = true :=
  scanFuel_sound content.data.length content.data

/-- The mention block emits one event and one push per resolved member
(the `if (mentions)` guard changes nothing, because with no token no
member resolves). -/
theorem mentionActions_eq (db : DB) (ch : ChannelR) (u : UserR)
    (content : String) (msg : Message) :
    mentionActions db ch u content msg =
      ((mentionedOf db ch.workspaceId content).map (mentionEventFor ch.id msg u),
       (mentionedOf db ch.workspaceId content).map (mentionPushFor ch msg u content)) := by
  unfold mentionActions
  cases h : extractMentions content with
  | nil =>
    have hm : mentionedOf db ch.workspaceId content = [] := by
      unfold mentionedOf mentionMatches
      rw [h]
      simp
    simp [hm]
  | cons a t => rfl

/-- Membership in the resolved-mention list, unfolded to the row level:
a pair is resolved iff it is a member row of the workspace joined with its
user row, and some extracted token matches the display name
case-insensitively after its `@` is sliced off. -/
theorem mem_mentionedOf (db : DB) (wsId content : String)
    (pr : WorkspaceMemberR × UserR) :
    pr ∈ mentionedOf db wsId content ↔
      (pr.1 ∈ db.workspaceMembers ∧ pr.1.workspaceId = wsId ∧
        findUser db pr.1.userId = some pr.2 ∧
        ∃ t ∈ extractMentions content,
          lowerStr (String.mk (t.data.drop 1)) = lowerStr pr.2.displayName) := by
  unfold mentionedOf wsMembersWithUser mentionMatches
  simp only [List.mem_filter, List.mem_filterMap, List.any_eq_true,
    Option.map_eq_some', List.mem_filter, decide_eq_true_eq]
  constructor
  · rintro ⟨⟨wm, ⟨hwm, hws⟩, u, hu, heq⟩, t, ht, hlow⟩
    cases heq
    exact ⟨hwm, hws, hu, t, ht, hlow⟩
  · rintro ⟨h1, h2, h3, t, ht, hlow⟩
    exact ⟨⟨pr.1, ⟨h1, h2⟩, pr.2, h3, Prod.mk.eta⟩, t, ht, hlow⟩

/-- The events of the insert-and-broadcast tail: the channel broadcast
followed by one `mention` event per resolved member. -/
theorem finishCreate_events (db : DB) (ch : ChannelR) (u : UserR)
    (c : String) (pid : Option String) (newId : String) (now : Nat) :
    (finishCreate db ch u c pid newId now).events =
      broadcastEventFor ch pid (newMessage ch u c pid newId now) ::
        (mentionedOf (finishCreate db ch u c pid newId now).db ch.workspaceId c).map
          (mentionEventFor ch.id (newMessage ch u c pid newId now) u) := by
  show broadcastEventFor _ _ _ :: (mentionActions _ _ _ _ _).1 = _
  rw [mentionActions_eq]
  rfl

/-- The pushes of the insert-and-broadcast tail: one per resolved
member. -/
theorem finishCreate_pushes (db : DB) (ch : ChannelR) (u : UserR)
    (c : String) (pid : Option String) (newId : String) (now : Nat) :
    (finishCreate db ch u c pid newId now).pushes =
      (mentionedOf (finishCreate db ch u c pid newId now).db ch.workspaceId c).map
        (mentionPushFor ch (newMessage ch u c pid newId now) u c) := by
  show (mentionActions _ _ _ _ _).2 = _
  rw [mentionActions_eq]
  rfl

/-- The channel-room broadcast is never named `mention`. -/
theorem broadcastEventFor_name_ne (ch : ChannelR) (pid : Option String)
    (msg : Message) : (broadcastEventFor ch pid msg).name ≠ "mention" := by
  unfold broadcastEventFor
  split <;> simp

/-- C8 (amended): on every successful create, tokens are extracted as the
`@`-prefixed word runs of the raw content; the resolved members are
exactly the workspace member rows whose user's display name equals some
token (without its `@`) case-insensitively; for each resolved member one
`mention` event — carrying the message, the channel id and the acting
user, but not the workspace id — is emitted to that member's personal
room, and one push delivery is triggered for that member, whose payload
carries both the channel and the workspace ids. -/
theorem mention_dispatch_spec
    (db : DB) (ch : ChannelR) (actingUser : UserR) (c : String)
    (parentId : Option String) (newId : String) (now : Nat)
    (hc : jsTrim c ≠ "")
    (hpar : parentId = none ∨
      ∃ p par, parentId = some p ∧ p ≠ "" ∧ findMessage db p = some par ∧
        par.channelId = ch.id ∧ jsTruthy par.parentId = false) :
    ∃ msg,
      (createMessage db ch actingUser (some c) parentId newId now).result =
        Except.ok msg ∧
      msg.content = jsTrim c ∧ msg.channelId = ch.id ∧
      msg.authorId = actingUser.id ∧
      ((createMessage db ch actingUser (some c) parentId newId now).events.filter
          (fun e => e.name = "mention") =
        (mentionedOf (createMessage db ch actingUser (some c) parentId newId now).db
            ch.workspaceId c).map (mentionEventFor ch.id msg actingUser)) ∧
      ((createMessage db ch actingUser (some c) parentId newId now).pushes =
        (mentionedOf (createMessage db ch actingUser (some c) parentId newId now).db
            ch.workspaceId c).map (mentionPushFor ch msg actingUser c)) ∧
      (∀ pr, pr ∈ mentionedOf
            (createMessage db ch actingUser (some c) parentId newId now).db
            ch.workspaceId c ↔
        (pr.1 ∈ db.workspaceMembers ∧ pr.1.workspaceId = ch.workspaceId ∧
          findUser db pr.1.userId = some pr.2 ∧
          ∃ t ∈ extractMentions c,
            lowerStr (String.mk (t.data.drop 1)) = lowerStr pr.2.displayName)) ∧
      (∀ t ∈ extractMentions c, ∃ w, t = "@" ++ String.mk w ∧ w ≠ [] ∧
        ∀ x ∈ w, isWordChar x = true) ∧
      (∀ pc ∈ (createMessage db ch actingUser (some c) parentId newId now).pushes,
        pc.payload.channelId = ch.id ∧ pc.payload.workspaceId = ch.workspaceId) := by
  have hred : createMessage db ch actingUser (some c) parentId newId now =
      finishCreate db ch actingUser c parentId newId now := by
    rcases hpar with rfl | ⟨p, par, rfl, hp, hfind, hchan, hpp⟩
    · simp [createMessage, hc, jsTruthy]
    · have htr : jsTruthy (some p) = true := by simp [jsTruthy, hp]
      simp [createMessage, hc, htr, hfind, hchan, hpp]
  refine ⟨newMessage ch actingUser c parentId newId now,
    by rw [hred]; rfl, rfl, rfl, rfl, ?_, ?_, ?_, extractMentions_sound c, ?_⟩
  · rw [hred, finishCreate_events,
      List.filter_cons_of_neg (by simpa using broadcastEventFor_name_ne ch parentId _),
      List.filter_eq_self.mpr ?_]
    rintro e he
    obtain ⟨pr, -, rfl⟩ := List.mem_map.mp he
    simp [mentionEventFor]
  · rw [hred, finishCreate_pushes]
  · intro pr
    rw [hred]
    exact mem_mentionedOf _ ch.workspaceId c pr
  · intro pc hpc
    rw [hred, finishCreate_pushes] at hpc
    obtain ⟨pr, -, rfl⟩ := List.mem_map.mp hpc
    exact ⟨rfl, rfl⟩

/-- Witness for C8's amended claim (scenario B): Bob's message "@Alice
check the setlist" in channel C of workspace W is created, the only
`mention` event goes to Alice's personal room, and the only push delivery
targets Alice with the channel and workspace ids in its payload. -/
theorem mention_dispatch_spec_witness :
    ∃ msg, outMention.result = Except.ok msg ∧
      msg.content = jsTrim "@Alice check the setlist" ∧
      outMention.pushes =
        (mentionedOf outMention.db "W" "@Alice check the setlist").map
          (mentionPushFor chPub msg uBob "@Alice check the setlist") := by
  obtain ⟨msg, h1, h2, -, -, -, h6, -⟩ := mention_dispatch_spec dbMention chPub uBob
    "@Alice check the setlist" none "m1" 10 (by decide) (Or.inl rfl)
  exact ⟨msg, h1, h2, h6⟩

/-- C1: the claim states that every message returned by
`Search(workspaceId, query, channelId?, authorId?)` belongs to a channel
the requester may access under the visibility rule of 4.2, for every
combination of the optional filters.  This fails: when the optional
`channelId` filter is truthy, the object spread
`...(channelId && { channelId })` overwrites the `channelId: { in:
accessibleChannels }` key of the Prisma `where` object, so the
accessibility restriction is dropped.  Concretely: `u` is a member of
workspace W but not of its private channel C, C is not accessible to `u`
(and the same search without the `channelId` filter correctly returns
nothing), yet the search filtered to C returns C's message. -/
theorem search_channelId_filter_leaks_private_channel :
    canAccessChannel dbSearch "u" chSecret = false ∧
    accessibleChannelIds dbSearch "u" "W" = [] ∧
    wsMemberExists dbSearch "u" "W" = true ∧
    searchMessages dbSearch "u" "W" (some "hello") (some "C") none none =
      Except.ok [mSecret] ∧
    searchMessages dbSearch "u" "W" (some "hello") none none none =
      Except.ok [] :=
  ⟨rfl, rfl, rfl, rfl, rfl⟩

/-- C4 counterexample: the claim states the requested limit is clamped
below to 1 and the request succeeds for every integer limit.  In the code
`take = Math.min(parseInt(limit), 100)` has no lower clamp: with
`limit = 0` on a channel holding one message, `hasMore` is true while
`items` is empty, so `items[0].id` throws and the request fails with a
500 instead of succeeding. -/
theorem listTopLevel_limit_zero_fails :
    listTopLevel dbOneMsg "c" none (some 0) = Except.error HErr.server ∧
    (topLevelMessages dbOneMsg "c").length = 1 :=
  ⟨rfl, rfl⟩

/-- C5: the claim states that ties in `createdAt` are ordered by the
stable secondary key `message id`.  The handler's `orderBy` is
`{ createdAt: 'desc' }` alone: the embedded order relation `createdDesc`
does not separate two rows with equal timestamps and distinct ids (both
orders are admissible), and consequently the page returned for the same
set of rows depends on the store's internal row order — the two storage
orders of the same two tied rows yield different pages — so pagination is
not deterministic under timestamp collisions. -/
theorem listTopLevel_order_no_tiebreak :
    createdDesc msgTieA msgTieB ∧ createdDesc msgTieB msgTieA ∧
    msgTieA.id ≠ msgTieB.id ∧ msgTieA.createdAt = msgTieB.createdAt ∧
    dbTieAB.messages.Perm dbTieBA.messages ∧
    listTopLevel dbTieAB "c" none (some 1) =
      Except.ok { messages := [msgTieA], nextCursor := some "a", hasMore := true } ∧
    listTopLevel dbTieBA "c" none (some 1) =
      Except.ok { messages := [msgTieB], nextCursor := some "b", hasMore := true } ∧
    ({ messages := [msgTieA], nextCursor := some "a", hasMore := true } : Page) ≠
      { messages := [msgTieB], nextCursor := some "b", hasMore := true } :=
  ⟨Nat.le_refl 5, Nat.le_refl 5, by decide, rfl, List.Perm.swap msgTieB msgTieA [],
   rfl, rfl, by decide⟩

/-- C8 counterexample: the claim states the `mention` event emitted to a
matched member's personal room carries the channel and workspace ids.  In
the code the event payload is the object `{ channelId, message,
mentionedBy }`: for the scenario-B message "@Alice check the setlist" a
`mention` event is emitted to Alice's personal room, and its payload has a
`channelId` field but no `workspaceId` field (the workspace id travels
only in the push payload). -/
theorem mention_event_lacks_workspaceId :
    outMention.result = Except.ok msgMention ∧
    outMention.events.any (fun e => e.name = "mention") = true ∧
    outMention.events.all (fun e => e.name ≠ "mention" ||
      (!hasKey "workspaceId" e.payload && hasKey "channelId" e.payload &&
        e.room = "user:alice")) = true :=
  ⟨rfl, by decide, by decide⟩

end Bandchat
